import Mathlib

/-!
Verification development for the yt-subtitle-webui browser clients.

The repository contains four JavaScript client variants:
* `docs/app.js` and `src/unnamed/part_000`: WebSocket ("streaming socket")
  binding clients;
* `src/unnamed/part_001`: reservation + EventSource ("reservation + event
  stream") binding client;
* `src/unnamed/part_003`: an older WebSocket binding client with a preview
  pane.

The definitions below are shallow embeddings of those scripts.  DOM state is
represented by explicit record types; host APIs (fetch responses, WebSocket
frames, EventSource events, localStorage) are passed in as explicit values.
Timestamps prefixed to log lines by `appendLog` (`new Date().toLocaleTimeString()`)
are omitted from the log-line model, as no property depends on them.
-/

namespace YtSub

/-- JavaScript whitespace test used by `String.prototype.trim` and the
regular-expression class `\s`, modelled by `Char.isWhitespace`
(space, tab, carriage return, newline). -/
def jsWs (c : Char) : Bool := c.isWhitespace

/-- Drop leading whitespace from a character list. -/
def trimStartL (l : List Char) : List Char := l.dropWhile jsWs

/-- Drop trailing whitespace from a character list. -/
def trimEndL (l : List Char) : List Char := (l.reverse.dropWhile jsWs).reverse

/-- Model of JavaScript `value.trim()`. -/
def jsTrim (s : String) : String := String.mk (trimEndL (trimStartL s.data))

/-- JavaScript string truthiness: `s || d` evaluates to `d` exactly when `s`
is the empty string. -/
def truthyD (s d : String) : String := if s = "" then d else s

/-- JavaScript truthiness of an optional string field: `o.f || d` where the
field may be absent (`undefined`) or the empty string. -/
def optTruthyD (o : Option String) (d : String) : String :=
  match o with
  | some s => truthyD s d
  | none => d

/-- Boolean truthiness of an optional string field (`!x` in JavaScript is
true for `undefined` and for the empty string). -/
def optTruthy (o : Option String) : Bool :=
  match o with
  | some s => s != ""
  | none => false

/-- `sanitizeWatchId` from `docs/app.js` (lines 118-124) and
`src/unnamed/part_001` (lines 175-181): trim, and return the empty string
when the trimmed value is empty. -/
def sanitizeWatchId (value : String) : String :=
  let trimmed := jsTrim value
  if trimmed = "" then "" else trimmed

theorem sanitizeWatchId_eq_trim (value : String) : sanitizeWatchId value = jsTrim value := by
  unfold sanitizeWatchId
  by_cases h : jsTrim value = "" <;> simp [h]

/-! ## HTTP responses (environment of `fetch`)

A `fetch` call is modelled by the response it produced: a status code and the
JSON body, where `none` stands for a body that `response.json()` failed to
parse (the client then proceeds with the empty object `{}`). -/

/-- The outcome of a `fetch` call as observed by the client: HTTP status and
the decoded JSON body (`none` when `response.json()` rejects). -/
structure HttpResp (β : Type) where
  status : Nat
  body : Option β
deriving DecidableEq

/-- `Response.ok` from the Fetch standard: status in the inclusive range
200-299, i.e. a 2xx status. -/
def respOk (status : Nat) : Bool := 200 ≤ status && status < 300

namespace Part001

/-- JSON body of a `POST /reservation` response as read by
`src/unnamed/part_001`: the optional `message` and `reservation_id`
string fields. -/
structure ResvBody where
  message : Option String
  reservation_id : Option String
deriving DecidableEq

/-- `createReservation` from `src/unnamed/part_001` (lines 89-114), with the
HTTP response as explicit input.  A missing/unparsable body is replaced by
`{}`; a non-2xx status throws `payload.message || "Failed to create
reservation."`; a falsy `payload.reservation_id` (absent or empty string)
throws `"Backend did not return a reservation ID."`; otherwise the
reservation id is returned. -/
def createReservation (r : HttpResp ResvBody) : Except String String :=
  let payload := r.body.getD ⟨none, none⟩
  if !respOk r.status then
    .error (optTruthyD payload.message "Failed to create reservation.")
  else
    match payload.reservation_id with
    | some rid => if rid = "" then .error "Backend did not return a reservation ID." else .ok rid
    | none => .error "Backend did not return a reservation ID."

/-- JSON body of a `GET /result/{id}` response as read by
`src/unnamed/part_001`: optional `message`, `text` and `language` fields. -/
structure ResultBody where
  message : Option String
  text : Option String
  language : Option String
deriving DecidableEq

/-- `fetchResult` from `src/unnamed/part_001` (lines 159-173), with the HTTP
response as explicit input: non-2xx throws `payload.message || "Failed to
fetch result."`, otherwise the (possibly empty) payload is returned. -/
def fetchResult (r : HttpResp ResultBody) : Except String ResultBody :=
  let payload := r.body.getD ⟨none, none, none⟩
  if !respOk r.status then
    .error (optTruthyD payload.message "Failed to fetch result.")
  else
    .ok payload

/-! ## The event stream (`waitForEvents`)

`waitForEvents` (lines 116-157) opens an `EventSource` and installs four
listeners.  We model the server-to-client stream as the list of events the
browser would dispatch in order; `EventSource.close()` stops all further
dispatch, which the step function models with the `closed` flag.  The
promise's resolve/reject is the `settled` field (`.ok ()` for resolve,
`.error msg` for a rejection); a promise can only settle once, modelled
with `<|>` keeping the first settlement. -/

/-- One event arriving on the `EventSource` of `waitForEvents`:
* `logEv ok msg` - a named `log` event (`ok = false` models a payload that
  `JSON.parse` rejects, `msg` the parsed `message` rendered by `appendLog`);
* `errorEv m` - a named `error` event whose parsed truthy `message` is `m`
  (`none` when the payload is unparsable or the field is falsy);
* `completedEv` - a named `completed` event;
* `connFail` - the `onerror` connection-level failure of the stream. -/
inductive StreamEvent where
  | logEv (ok : Bool) (msg : String)
  | errorEv (m : Option String)
  | completedEv
  | connFail
deriving DecidableEq

/-- The settlement an event forces on the `waitForEvents` promise, if any:
`log` events settle nothing; an `error` event rejects with
`data.message || "Stream error from backend."`; `completed` resolves; the
stream-level `onerror` rejects with `"Failed to connect to event stream."`. -/
def terminalOutcome : StreamEvent → Option (Except String Unit)
  | .logEv _ _ => none
  | .errorEv m => some (.error (match m with | some s => s | none => "Stream error from backend."))
  | .completedEv => some (.ok ())
  | .connFail => some (.error "Failed to connect to event stream.")

/-- An event is terminal when it settles the promise. -/
def isTerminalEv (e : StreamEvent) : Bool := (terminalOutcome e).isSome

/-- State of one `waitForEvents` call: whether `eventSource.close()` has run,
how the promise has settled (if at all), and the events actually dispatched
to the listeners. -/
structure ESState where
  closed : Bool
  settled : Option (Except String Unit)
  delivered : List StreamEvent

/-- Dispatch of one stream event to the listeners installed by
`waitForEvents`: nothing is dispatched after `close()`; a `log` event only
logs; each terminal event first calls `eventSource.close()` and then
settles the promise (which keeps its first settlement). -/
def esStep (s : ESState) (e : StreamEvent) : ESState :=
  if s.closed then s
  else
    match terminalOutcome e with
    | none => { s with delivered := s.delivered ++ [e] }
    | some o => { closed := true, settled := s.settled <|> some o, delivered := s.delivered ++ [e] }

/-- `waitForEvents` from `src/unnamed/part_001` (lines 116-157), run against
the stream of events the server would emit: fold the listener dispatch over
the stream, starting from an open, unsettled source. -/
def waitForEvents (evs : List StreamEvent) : ESState :=
  evs.foldl esStep ⟨false, none, []⟩

/-- The prefix of a stream that is actually delivered before `close()`:
everything up to and including the first terminal event. -/
def deliveredOf : List StreamEvent → List StreamEvent
  | [] => []
  | e :: rest => if isTerminalEv e then [e] else e :: deliveredOf rest

theorem esStep_closed (s : ESState) (e : StreamEvent) (h : s.closed = true) :
    esStep s e = s := by
  simp [esStep, h]

theorem foldl_esStep_closed (s : ESState) (evs : List StreamEvent) (h : s.closed = true) :
    evs.foldl esStep s = s := by
  induction evs with
  | nil => rfl
  | cons e t ih => simpa [List.foldl_cons, esStep_closed s e h] using ih

theorem foldl_esStep_spec (evs : List StreamEvent) :
    ∀ s : ESState, s.closed = false → s.settled = none →
      evs.foldl esStep s =
        ⟨evs.any isTerminalEv, evs.findSome? terminalOutcome, s.delivered ++ deliveredOf evs⟩ := by
  induction evs with
  | nil =>
    intro s hc hs
    cases s
    simp_all [deliveredOf]
  | cons e t ih =>
    intro s hc hs
    cases ho : terminalOutcome e with
    | none =>
      have hterm : isTerminalEv e = false := by simp [isTerminalEv, ho]
      have hstep : esStep s e = { s with delivered := s.delivered ++ [e] } := by
        simp [esStep, hc, ho]
      rw [List.foldl_cons, hstep, ih _ (by simpa using hc) (by simpa using hs)]
      simp [hterm, deliveredOf, List.findSome?, ho]
    | some o =>
      have hterm : isTerminalEv e = true := by simp [isTerminalEv, ho]
      have hstep : esStep s e = ⟨true, some o, s.delivered ++ [e]⟩ := by
        simp [esStep, hc, ho, hs]
      rw [List.foldl_cons, hstep, foldl_esStep_closed _ _ rfl]
      simp [hterm, deliveredOf, List.findSome?, ho]

theorem deliveredOf_eq (evs : List StreamEvent) :
    deliveredOf evs =
      evs.takeWhile (fun e => !isTerminalEv e) ++ (evs.find? isTerminalEv).toList := by
  induction evs with
  | nil => rfl
  | cons e t ih =>
    by_cases h : isTerminalEv e = true
    · simp [deliveredOf, h, List.takeWhile_cons, List.find?]
    · have h' : isTerminalEv e = false := by simpa using h
      simp [deliveredOf, h', List.takeWhile_cons, List.find?, ih]

theorem countP_deliveredOf (evs : List StreamEvent) :
    (deliveredOf evs).countP isTerminalEv = (if evs.any isTerminalEv then 1 else 0) := by
  induction evs with
  | nil => simp [deliveredOf]
  | cons e t ih =>
    by_cases h : isTerminalEv e = true
    · simp [deliveredOf, h, List.countP_cons]
    · have h' : isTerminalEv e = false := by simpa using h
      simpa [deliveredOf, h', List.countP_cons] using ih

theorem findSome?_terminal_ok_iff (evs : List StreamEvent) :
    evs.findSome? terminalOutcome = some (Except.ok ()) ↔
      evs.find? isTerminalEv = some StreamEvent.completedEv := by
  induction evs with
  | nil => simp [List.findSome?]
  | cons e t ih =>
    cases e with
    | logEv ok msg => simpa [List.findSome?, List.find?, terminalOutcome, isTerminalEv] using ih
    | errorEv m => simp [List.findSome?, List.find?, terminalOutcome, isTerminalEv]
    | completedEv => simp [List.findSome?, List.find?, terminalOutcome, isTerminalEv]
    | connFail => simp [List.findSome?, List.find?, terminalOutcome, isTerminalEv]

/-! ## The download-button click handler (reservation variant)

`src/unnamed/part_001` lines 222-276: one async request cycle.  The DOM is
the `UiState` record; the external world is a `CycleEnv` (the reservation
response, the event stream, and the result response).  Besides the final UI
state the model returns the trace of backend operations the cycle performed,
in order, and whether the async handler actually finished (`pending` models
an event stream that never settles the `waitForEvents` promise, leaving the
handler suspended at its `await`). -/

/-- DOM state touched by the `part_001` client: status line, log lines, the
`fullText` textarea, the `latestText` variable, the three button-disabled
flags and the completion modal (title, message, tone). -/
structure UiState where
  status : String
  log : List String
  fullTextVal : String
  latestText : String
  copyDisabled : Bool
  copyPromptDisabled : Bool
  downloadDisabled : Bool
  modal : Option (String × String × String)
deriving DecidableEq

/-- `setStatus` (lines 29-32): set the status line and append a
`Frontend: ...` log entry. -/
def setStatusU (ui : UiState) (m : String) : UiState :=
  { ui with status := m, log := ui.log ++ ["Frontend: " ++ m] }

/-- `appendLog` (lines 20-27), with the timestamp prefix omitted. -/
def appendLogU (ui : UiState) (m : String) : UiState :=
  { ui with log := ui.log ++ [m] }

/-- `showCompletionModal` (lines 46-53), with all modal elements present. -/
def showModalU (ui : UiState) (title msg tone : String) : UiState :=
  { ui with modal := some (title, msg, tone) }

/-- The `catch` block of the click handler (lines 265-272). -/
def catchPath (ui : UiState) (e : String) : UiState :=
  showModalU (setStatusU (appendLogU ui ("Backend error: " ++ e)) "Error")
    "Download failed"
    (truthyD e "The backend reported an error while processing the request.")
    "error"

/-- One backend operation performed by the reservation-variant cycle. -/
inductive CycleAction where
  | createResv (watchId : String)
  | openStream (reservationId : String)
  | fetchRes (reservationId : String)
deriving DecidableEq

/-- The environment of one cycle: the response to `POST /reservation`, the
events the server emits on `GET /events/{id}`, and the response to
`GET /result/{id}`. -/
structure CycleEnv where
  resvResponse : HttpResp ResvBody
  events : List StreamEvent
  resultResponse : HttpResp ResultBody
deriving DecidableEq

/-- Whether the async click handler ran to completion (its `finally` block
included) or is still suspended awaiting a promise that never settles. -/
inductive CyclePhase where
  | done
  | pending
deriving DecidableEq

/-- The `downloadButton` click handler of `src/unnamed/part_001`
(lines 222-276): sanitize the input; on empty input set a prompt status and
return; otherwise clear the result state, disable the controls, create the
reservation, await the event stream, fetch the result, and in every
completed path re-enable the download button in `finally`. -/
def runCycle (ui : UiState) (raw : String) (env : CycleEnv) :
    UiState × List CycleAction × CyclePhase :=
  let watchId := sanitizeWatchId raw
  if watchId = "" then
    (setStatusU ui "Please enter a watch ID or URL", [], .done)
  else
    let ui :=
      { ui with
        fullTextVal := ""
        latestText := ""
        copyDisabled := true
        copyPromptDisabled := true
        downloadDisabled := true }
    let ui := setStatusU ui "Creating reservation..."
    match createReservation env.resvResponse with
    | .error e =>
        ({ catchPath ui e with downloadDisabled := false }, [.createResv watchId], .done)
    | .ok rid =>
        let ui := appendLogU ui ("Frontend: Reservation created (" ++ rid ++ ").")
        let ui := setStatusU ui "Waiting for backend events..."
        match (waitForEvents env.events).settled with
        | none => (ui, [.createResv watchId, .openStream rid], .pending)
        | some (.error e) =>
            ({ catchPath ui e with downloadDisabled := false },
             [.createResv watchId, .openStream rid], .done)
        | some (.ok ()) =>
            let ui := setStatusU ui "Fetching final subtitle result..."
            match fetchResult env.resultResponse with
            | .error e =>
                ({ catchPath ui e with downloadDisabled := false },
                 [.createResv watchId, .openStream rid, .fetchRes rid], .done)
            | .ok data =>
                let lt := data.text.getD ""
                let ui :=
                  { ui with
                    latestText := lt
                    fullTextVal := lt
                    copyDisabled := lt == ""
                    copyPromptDisabled := lt == "" }
                let ui := setStatusU ui
                  ("Completed (language: " ++ optTruthyD data.language "unknown" ++ ")")
                let ui := appendLogU ui "Frontend: Results loaded into the UI."
                let ui := showModalU ui "Download complete"
                  ("Subtitles are ready" ++
                    (match data.language with
                     | some l => if l = "" then "" else " in " ++ l
                     | none => "") ++
                    ". You can copy the text or the prompt from the buttons above.")
                  "success"
                ({ ui with downloadDisabled := false },
                 [.createResv watchId, .openStream rid, .fetchRes rid], .done)

end Part001

theorem respOk_iff (n : Nat) : respOk n = true ↔ (200 ≤ n ∧ n < 300) := by
  simp [respOk]

theorem waitForEvents_settled_eq (evs : List Part001.StreamEvent) :
    Part001.waitForEvents evs =
      ⟨evs.any Part001.isTerminalEv, evs.findSome? Part001.terminalOutcome,
        Part001.deliveredOf evs⟩ := by
  have h := Part001.foldl_esStep_spec evs ⟨false, none, []⟩ rfl rfl
  unfold Part001.waitForEvents
  rw [h]
  simp

/-- Claim C2: for any one download cycle observed by the reservation-variant
client, the `waitForEvents` promise settles exactly once — resolved on the
first `completed` event, rejected on the first `error` event or stream
failure — the event source is closed at that point, and the events actually
delivered are zero or more non-terminal (log) events followed by at most the
first terminal event, so a second terminal outcome is never delivered. -/
theorem waitForEvents_exactly_one_terminal (evs : List Part001.StreamEvent) :
    (Part001.waitForEvents evs).settled = evs.findSome? Part001.terminalOutcome
    ∧ (Part001.waitForEvents evs).closed = evs.any Part001.isTerminalEv
    ∧ (Part001.waitForEvents evs).delivered =
        evs.takeWhile (fun e => !Part001.isTerminalEv e) ++
          (evs.find? Part001.isTerminalEv).toList
    ∧ (Part001.waitForEvents evs).delivered.countP Part001.isTerminalEv =
        (if evs.any Part001.isTerminalEv then 1 else 0) := by
  rw [waitForEvents_settled_eq]
  exact ⟨rfl, rfl, Part001.deliveredOf_eq evs, Part001.countP_deliveredOf evs⟩

theorem runCycle_trace (ui : Part001.UiState) (raw : String) (env : Part001.CycleEnv)
    (h : jsTrim raw ≠ "") :
    (Part001.runCycle ui raw env).2.1 =
      (match Part001.createReservation env.resvResponse with
       | .error _ => [Part001.CycleAction.createResv (jsTrim raw)]
       | .ok rid =>
           Part001.CycleAction.createResv (jsTrim raw) :: Part001.CycleAction.openStream rid ::
             (match env.events.findSome? Part001.terminalOutcome with
              | some (.ok ()) => [Part001.CycleAction.fetchRes rid]
              | _ => [])) := by
  unfold Part001.runCycle
  rw [sanitizeWatchId_eq_trim, if_neg h, waitForEvents_settled_eq]
  cases hr : Part001.createReservation env.resvResponse with
  | error e => rfl
  | ok rid =>
    cases hs : env.events.findSome? Part001.terminalOutcome with
    | none => rfl
    | some o =>
      cases o with
      | error e => rfl
      | ok u =>
        cases u
        cases Part001.fetchResult env.resultResponse <;> rfl

/-- Claim C3: in the reservation variant, the three phases run strictly in
order — the trace of backend calls is always a prefix of
`createReservation`, `openEventStream`, `fetchResult`; `fetchResult` appears
(for the id the reservation returned) exactly when the reservation succeeded
and the first terminal event of the stream was `completed`; an `error` event
or a stream-connection failure never leads to `fetchResult`. -/
theorem runCycle_phase_order (ui : Part001.UiState) (raw : String) (env : Part001.CycleEnv)
    (h : jsTrim raw ≠ "") :
    ((Part001.runCycle ui raw env).2.1 =
      (match Part001.createReservation env.resvResponse with
       | .error _ => [Part001.CycleAction.createResv (jsTrim raw)]
       | .ok rid =>
           Part001.CycleAction.createResv (jsTrim raw) :: Part001.CycleAction.openStream rid ::
             (if env.events.find? Part001.isTerminalEv = some Part001.StreamEvent.completedEv
              then [Part001.CycleAction.fetchRes rid] else [])))
    ∧ (∀ rid, Part001.CycleAction.fetchRes rid ∈ (Part001.runCycle ui raw env).2.1 →
        Part001.createReservation env.resvResponse = .ok rid ∧
          env.events.find? Part001.isTerminalEv = some Part001.StreamEvent.completedEv) := by
  have htr := runCycle_trace ui raw env h
  have hmain : (Part001.runCycle ui raw env).2.1 =
      (match Part001.createReservation env.resvResponse with
       | .error _ => [Part001.CycleAction.createResv (jsTrim raw)]
       | .ok rid =>
           Part001.CycleAction.createResv (jsTrim raw) :: Part001.CycleAction.openStream rid ::
             (if env.events.find? Part001.isTerminalEv = some Part001.StreamEvent.completedEv
              then [Part001.CycleAction.fetchRes rid] else [])) := by
    rw [htr]
    have hiff := Part001.findSome?_terminal_ok_iff env.events
    cases hr : Part001.createReservation env.resvResponse with
    | error e => rfl
    | ok rid =>
      by_cases hc : env.events.find? Part001.isTerminalEv = some Part001.StreamEvent.completedEv
      · have hs := hiff.mpr hc
        simp [hs, hc]
      · cases hs2 : env.events.findSome? Part001.terminalOutcome with
        | none => simp [hs2, hc]
        | some o =>
          cases o with
          | error e => simp [hs2, hc]
          | ok u =>
            cases u
            exact absurd (hiff.mp hs2) hc
  refine ⟨hmain, ?_⟩
  intro rid hmem
  rw [hmain] at hmem
  cases hr : Part001.createReservation env.resvResponse with
  | error e => rw [hr] at hmem; simp at hmem
  | ok rid' =>
    rw [hr] at hmem
    by_cases hc : env.events.find? Part001.isTerminalEv = some Part001.StreamEvent.completedEv
    · simp [hc] at hmem
      subst hmem
      exact ⟨rfl, hc⟩
    · simp [hc] at hmem

/-- A page-load reservation-variant UI state (all text empty, copy buttons
disabled, download enabled, no modal), used to instantiate theorems with
hypotheses at concrete inputs. -/
def initUi : Part001.UiState :=
  ⟨"", [], "", "", true, true, false, none⟩

/-- A successful concrete environment: reservation `"r1"`, a single
`completed` event, and a result body. -/
def envOkW : Part001.CycleEnv :=
  ⟨⟨200, some ⟨none, some "r1"⟩⟩, [Part001.StreamEvent.completedEv],
    ⟨200, some ⟨none, some "hello", some "en"⟩⟩⟩

theorem runCycle_phase_order_witness :
    (Part001.runCycle initUi "abc" envOkW).2.1 =
      [Part001.CycleAction.createResv "abc", Part001.CycleAction.openStream "r1",
        Part001.CycleAction.fetchRes "r1"] := by
  have hthm := runCycle_phase_order initUi "abc" envOkW (by decide)
  rw [hthm.1]
  rfl

/-! ## The streaming-socket binding clients

`docs/app.js` (and its near-identical variant `src/unnamed/part_000`) and
`src/unnamed/part_003` drive one WebSocket connection.  The socket object is
modelled by an identity and its ready state; the module-level `socket`
variable is the `Option SocketConn` threaded through the handlers.  A wire
command (`ws.send(JSON.stringify({...}))`) is modelled as the ordered field
list of the serialized JSON object. -/

/-- WebSocket ready states (`CONNECTING`/`OPEN`/`CLOSING`/`CLOSED`);
`opened` stands for `WebSocket.OPEN`. -/
inductive ReadyState where
  | connecting
  | opened
  | closing
  | closed
deriving DecidableEq

/-- A WebSocket object: an identity (to distinguish a reused socket from a
newly constructed one) and its ready state. -/
structure SocketConn where
  id : Nat
  readyState : ReadyState
deriving DecidableEq

/-- A JSON object sent on the socket, as its ordered list of
(key, string value) fields. -/
abbrev WireCmd := List (String × String)

namespace AppJs

/-- DOM state touched by `docs/app.js`: status line, log lines, the two
summary panes, the `fullText` textarea, the `latestText` variable and the
two button-disabled flags. -/
structure AUi where
  status : String
  log : List String
  summaryBeginning : String
  summaryEnding : String
  fullTextVal : String
  latestText : String
  copyDisabled : Bool
  downloadDisabled : Bool
deriving DecidableEq

/-- `setStatus` from `docs/app.js` (lines 23-26). -/
def setStatusA (ui : AUi) (m : String) : AUi :=
  { ui with status := m, log := ui.log ++ ["Frontend: " ++ m] }

/-- `appendLog` from `docs/app.js` (lines 14-21), timestamp prefix omitted. -/
def appendLogA (ui : AUi) (m : String) : AUi :=
  { ui with log := ui.log ++ [m] }

/-- JavaScript template-literal rendering of a field that may be
`undefined`. -/
def jsShow (o : Option String) : String := o.getD "undefined"

/-- A frame arriving on the socket, after `JSON.parse`:
`invalid` models data that is not JSON; `otherF` a JSON object whose `type`
is none of `log`/`error`/`result`; the `resultF` fields are `text`,
`language`, `summary?.beginning` and `summary?.ending`. -/
inductive WsFrame where
  | invalid
  | logF (m : Option String)
  | errorF (m : Option String)
  | resultF (text : Option String) (language : Option String)
      (summaryB : Option String) (summaryE : Option String)
  | otherF
deriving DecidableEq

/-- A frame that ends the in-flight job (`type: "error"` or
`type: "result"`). -/
def isTerminalFrame : WsFrame → Bool
  | .errorF _ => true
  | .resultF _ _ _ _ => true
  | _ => false

/-- The `message` listener of `connectSocket` in `docs/app.js`
(lines 74-105). -/
def onMessage (ui : AUi) (f : WsFrame) : AUi :=
  match f with
  | .invalid => appendLogA ui "Frontend: Received non-JSON message."
  | .logF m => appendLogA ui ("Backend: " ++ jsShow m)
  | .errorF m =>
      let ui := appendLogA ui ("Backend error: " ++ jsShow m)
      let ui := setStatusA ui "Error"
      { ui with downloadDisabled := false }
  | .resultF t lang sb se =>
      let lt := t.getD ""
      let ui :=
        { ui with
          latestText := lt
          summaryBeginning := sb.getD ""
          summaryEnding := se.getD ""
          fullTextVal := lt
          copyDisabled := lt == "" }
      let ui := setStatusA ui ("Completed (language: " ++ optTruthyD lang "unknown" ++ ")")
      let ui := { ui with downloadDisabled := false }
      appendLogA ui "Frontend: Results loaded into the UI."
  | .otherF => ui

/-- The `close` listener of `connectSocket` in `docs/app.js`
(lines 107-109): it only appends a log line. -/
def onClose (ui : AUi) : AUi :=
  appendLogA ui "Frontend: WebSocket connection closed."

/-- The `error` listener of `connectSocket` in `docs/app.js`
(lines 111-113): it only appends a log line. -/
def onSocketError (ui : AUi) : AUi :=
  appendLogA ui "Frontend: WebSocket error."

/-- `connectSocket` from `docs/app.js` (lines 62-68, 115): reuse the module
socket when it exists and is OPEN, otherwise construct a new `WebSocket`
(which starts in CONNECTING).  The second component records whether a new
socket was constructed. -/
def connectSocket (sock : Option SocketConn) (freshId : Nat) : SocketConn × Bool :=
  match sock with
  | some s =>
      if s.readyState = ReadyState.opened then (s, false)
      else (⟨freshId, ReadyState.connecting⟩, true)
  | none => (⟨freshId, ReadyState.connecting⟩, true)

/-- The message/close listeners never touch the module `socket` variable;
`ClientState` pairs the DOM state with it so that this is expressible. -/
structure ClientState where
  ui : AUi
  sock : Option SocketConn
deriving DecidableEq

/-- The `message` listener acting on the full client state: the socket
variable is untouched (the listener body contains no socket mutation and no
`close()` call). -/
def onMessageC (s : ClientState) (f : WsFrame) : ClientState :=
  ⟨onMessage s.ui f, s.sock⟩

/-- The start command sent by the click handler (lines 174-179, 186-191):
`JSON.stringify({action: "download", watch_id: watchId})`. -/
def downloadCommand (watchId : String) : WireCmd :=
  [("action", "download"), ("watch_id", watchId)]

/-- Result of one click on the download button: new DOM state, the module
socket, whether a new socket was constructed, the commands sent
immediately, and the commands queued on a one-shot `open` listener. -/
structure ClickResult where
  ui : AUi
  sock : Option SocketConn
  created : Bool
  sentNow : List WireCmd
  pendingOpen : List WireCmd
deriving DecidableEq

/-- The `downloadButton` click handler of `docs/app.js` (lines 155-194):
sanitize the input; on empty input set a prompt status and return without
touching anything else; otherwise reset the result panes, disable the
buttons, connect (or reuse) the socket, always register a one-shot `open`
listener that sends the start command, and additionally send it immediately
when the socket is already OPEN. -/
def downloadClick (ui : AUi) (raw : String) (sock : Option SocketConn) (freshId : Nat) :
    ClickResult :=
  let watchId := sanitizeWatchId raw
  if watchId = "" then
    ⟨setStatusA ui "Please enter a watch ID or URL", sock, false, [], []⟩
  else
    let ui :=
      { ui with
        summaryBeginning := "Downloading..."
        summaryEnding := "Downloading..."
        fullTextVal := ""
        latestText := ""
        copyDisabled := true
        downloadDisabled := true }
    let ui := setStatusA ui "Requesting subtitles..."
    let r := connectSocket sock freshId
    let pendingOpen := [downloadCommand watchId]
    if r.1.readyState = ReadyState.opened then
      let ui := appendLogA ui ("Frontend: Sent download request for " ++ watchId ++ ".")
      ⟨ui, some r.1, r.2, [downloadCommand watchId], pendingOpen⟩
    else
      ⟨ui, some r.1, r.2, [], pendingOpen⟩

/-- A page-load `docs/app.js` UI state: empty panes, copy disabled,
download enabled. -/
def initAUi : AUi := ⟨"", [], "", "", "", "", true, false⟩

end AppJs

namespace Part003

/-- DOM state touched by `src/unnamed/part_003`: status line, the log
textarea, preview panes, language label, the `fullSubtitle` variable and the
two button-disabled flags. -/
structure P3Ui where
  status : String
  logText : String
  subtitleStart : String
  subtitleEnd : String
  languageText : String
  fullSubtitle : String
  copyDisabled : Bool
  downloadDisabled : Bool
deriving DecidableEq

/-- `connectSocket` from `src/unnamed/part_003` (lines 33-37): reuse the
module socket when OPEN, otherwise construct a new one. -/
def connectSocket (sock : Option SocketConn) (freshId : Nat) : SocketConn × Bool :=
  match sock with
  | some s =>
      if s.readyState = ReadyState.opened then (s, false)
      else (⟨freshId, ReadyState.connecting⟩, true)
  | none => (⟨freshId, ReadyState.connecting⟩, true)

/-- The start command sent by the `part_003` click handler (lines 121, 126):
`JSON.stringify({type: "download", id: videoId})`. -/
def downloadCommand (videoId : String) : WireCmd :=
  [("type", "download"), ("id", videoId)]

/-- Result of one click on `downloadBtn` in `part_003`. -/
structure P3ClickResult where
  ui : P3Ui
  sock : Option SocketConn
  created : Bool
  sentNow : List WireCmd
  pendingOpen : List WireCmd
deriving DecidableEq

/-- The `downloadBtn` click handler of `src/unnamed/part_003`
(lines 103-131): trim the input; on empty input set the status and return;
otherwise clear the panes, connect (or reuse) the socket, send the start
command immediately when OPEN and otherwise queue it on a one-shot `open`
listener, then disable the download button and set the status. -/
def downloadClick (ui : P3Ui) (raw : String) (sock : Option SocketConn) (freshId : Nat) :
    P3ClickResult :=
  let videoId := jsTrim raw
  if videoId = "" then
    ⟨{ ui with status := "Video ID required" }, sock, false, [], []⟩
  else
    let ui :=
      { ui with
        logText := ""
        subtitleStart := "-"
        subtitleEnd := "-"
        languageText := "-"
        fullSubtitle := ""
        copyDisabled := true }
    let r := connectSocket sock freshId
    let sentNow := if r.1.readyState = ReadyState.opened then [downloadCommand videoId] else []
    let pendingOpen := if r.1.readyState = ReadyState.opened then [] else [downloadCommand videoId]
    ⟨{ ui with downloadDisabled := true, status := "Downloading..." }, some r.1, r.2,
      sentNow, pendingOpen⟩

/-- A page-load `part_003` UI state. -/
def initP3Ui : P3Ui := ⟨"", "", "-", "-", "-", "", true, false⟩

end Part003

/-- Claim C1 (the code as written): in the streaming-socket client
`docs/app.js`, clicking download with a non-empty watch id disables the
download button, and a subsequent transport failure — the socket's `close`
or `error` event — leaves it disabled, because those listeners only append a
log line; only the backend `error`/`result` frames re-enable it (shown on
the error frame for contrast).  This contradicts the claim's (and the
spec's) "re-enabled on every exit path including transport failure". -/
theorem appjs_close_leaves_button_disabled :
    (AppJs.downloadClick AppJs.initAUi "abc" none 1).ui.downloadDisabled = true
    ∧ (AppJs.onClose (AppJs.downloadClick AppJs.initAUi "abc" none 1).ui).downloadDisabled = true
    ∧ (AppJs.onSocketError
        (AppJs.downloadClick AppJs.initAUi "abc" none 1).ui).downloadDisabled = true
    ∧ (AppJs.onMessage (AppJs.downloadClick AppJs.initAUi "abc" none 1).ui
        (AppJs.WsFrame.errorF (some "boom"))).downloadDisabled = false := by
  exact ⟨rfl, rfl, rfl, rfl⟩

/-- Claim C4: when the trimmed input is empty, a click performs no backend
call and sends nothing: the reservation-variant handler only sets the prompt
status (trace empty), and the socket-variant handler only sets the prompt
status, keeps the socket, creates none and sends/queues nothing; in both the
download button's disabled flag (and all result/copy state) is unchanged. -/
theorem empty_input_no_request (ui1 : Part001.UiState) (ui2 : AppJs.AUi) (raw : String)
    (env : Part001.CycleEnv) (sock : Option SocketConn) (fid : Nat)
    (h : jsTrim raw = "") :
    Part001.runCycle ui1 raw env =
      (Part001.setStatusU ui1 "Please enter a watch ID or URL", [], Part001.CyclePhase.done)
    ∧ AppJs.downloadClick ui2 raw sock fid =
        ⟨AppJs.setStatusA ui2 "Please enter a watch ID or URL", sock, false, [], []⟩
    ∧ (Part001.runCycle ui1 raw env).1.downloadDisabled = ui1.downloadDisabled
    ∧ (AppJs.downloadClick ui2 raw sock fid).ui.downloadDisabled = ui2.downloadDisabled := by
  have h1 : Part001.runCycle ui1 raw env =
      (Part001.setStatusU ui1 "Please enter a watch ID or URL", [], Part001.CyclePhase.done) := by
    unfold Part001.runCycle
    rw [sanitizeWatchId_eq_trim, if_pos h]
  have h2 : AppJs.downloadClick ui2 raw sock fid =
      ⟨AppJs.setStatusA ui2 "Please enter a watch ID or URL", sock, false, [], []⟩ := by
    unfold AppJs.downloadClick
    rw [sanitizeWatchId_eq_trim, if_pos h]
  refine ⟨h1, h2, ?_, ?_⟩
  · rw [h1]; rfl
  · rw [h2]; rfl

theorem empty_input_no_request_witness :
    Part001.runCycle initUi "   " envOkW =
      (Part001.setStatusU initUi "Please enter a watch ID or URL", [], Part001.CyclePhase.done)
    ∧ (AppJs.downloadClick AppJs.initAUi "   " none 0).sentNow = [] := by
  have hthm := empty_input_no_request initUi AppJs.initAUi "   " envOkW none 0 (by decide)
  refine ⟨hthm.1, ?_⟩
  rw [hthm.2.1]

/-- Claim C5 (amended): every start command the `docs/app.js`/`part_000`
socket client sends or queues is exactly
`{"action":"download","watch_id":<trimmed input>}`, while the `part_003`
socket client instead sends or queues exactly
`{"type":"download","id":<trimmed input>}`. -/
theorem start_command_shape (ui2 : AppJs.AUi) (ui3 : Part003.P3Ui) (raw : String)
    (sock sock3 : Option SocketConn) (fid fid3 : Nat) (cmd : WireCmd) :
    (cmd ∈ (AppJs.downloadClick ui2 raw sock fid).sentNow ++
        (AppJs.downloadClick ui2 raw sock fid).pendingOpen →
      cmd = [("action", "download"), ("watch_id", jsTrim raw)])
    ∧ (cmd ∈ (Part003.downloadClick ui3 raw sock3 fid3).sentNow ++
        (Part003.downloadClick ui3 raw sock3 fid3).pendingOpen →
      cmd = [("type", "download"), ("id", jsTrim raw)]) := by
  constructor
  · intro hmem
    by_cases h : jsTrim raw = ""
    · rw [show AppJs.downloadClick ui2 raw sock fid =
          ⟨AppJs.setStatusA ui2 "Please enter a watch ID or URL", sock, false, [], []⟩ from by
            unfold AppJs.downloadClick; rw [sanitizeWatchId_eq_trim, if_pos h]] at hmem
      simp at hmem
    · unfold AppJs.downloadClick at hmem
      rw [sanitizeWatchId_eq_trim, if_neg h] at hmem
      by_cases ho : (AppJs.connectSocket sock fid).1.readyState = ReadyState.opened <;>
        simp [ho, AppJs.downloadCommand] at hmem <;>
        simp [hmem]
  · intro hmem
    by_cases h : jsTrim raw = ""
    · rw [show Part003.downloadClick ui3 raw sock3 fid3 =
          ⟨{ ui3 with status := "Video ID required" }, sock3, false, [], []⟩ from by
            unfold Part003.downloadClick; rw [if_pos h]] at hmem
      simp at hmem
    · unfold Part003.downloadClick at hmem
      rw [if_neg h] at hmem
      by_cases ho : (Part003.connectSocket sock3 fid3).1.readyState = ReadyState.opened <;>
        simp [ho, Part003.downloadCommand] at hmem <;>
        simp [hmem]

theorem start_command_shape_witness :
    ([("action", "download"), ("watch_id", "abc")] : WireCmd) =
      [("action", "download"), ("watch_id", jsTrim "abc")] := by
  have hthm := start_command_shape AppJs.initAUi Part003.initP3Ui "abc"
    (some ⟨0, ReadyState.opened⟩) (some ⟨0, ReadyState.opened⟩) 1 1
    [("action", "download"), ("watch_id", "abc")]
  exact hthm.1 (by decide)

/-- Claim C5, counterexample to the claim as stated: the `part_003` socket
client's start command for the input `"abc"` is
`{"type":"download","id":"abc"}`, which is not of the claimed form
`{"action":"download","watch_id":"abc"}`. -/
theorem part003_start_command_counterexample :
    (Part003.downloadClick Part003.initP3Ui "abc" (some ⟨0, ReadyState.opened⟩) 1).sentNow =
      [[("type", "download"), ("id", "abc")]]
    ∧ ([("type", "download"), ("id", "abc")] : WireCmd) ≠
        [("action", "download"), ("watch_id", "abc")] := by
  exact ⟨rfl, by decide⟩

theorem downloadClick_reuses_open_socket (ui : AppJs.AUi) (conn : SocketConn) (raw : String)
    (fid : Nat) (hopen : conn.readyState = ReadyState.opened) (hraw : jsTrim raw ≠ "") :
    (AppJs.downloadClick ui raw (some conn) fid).sock = some conn
    ∧ (AppJs.downloadClick ui raw (some conn) fid).created = false := by
  unfold AppJs.downloadClick
  rw [sanitizeWatchId_eq_trim, if_neg hraw]
  simp [AppJs.connectSocket, hopen]

/-- Claim C7: a terminal frame (`error` or `result`) leaves the module
socket untouched — the message listener contains no `close()` — and a
subsequent click's `connectSocket` (in `docs/app.js` and in `part_003`)
returns the existing OPEN socket without constructing a new one, so the next
download reuses the same connection. -/
theorem terminal_frame_keeps_socket (ui : AppJs.AUi) (conn : SocketConn) (f : AppJs.WsFrame)
    (fid fid2 : Nat) (raw : String)
    (_hterm : AppJs.isTerminalFrame f = true)
    (hopen : conn.readyState = ReadyState.opened)
    (hraw : jsTrim raw ≠ "") :
    (AppJs.onMessageC ⟨ui, some conn⟩ f).sock = some conn
    ∧ AppJs.connectSocket (some conn) fid = (conn, false)
    ∧ Part003.connectSocket (some conn) fid = (conn, false)
    ∧ (AppJs.downloadClick (AppJs.onMessageC ⟨ui, some conn⟩ f).ui raw
        (AppJs.onMessageC ⟨ui, some conn⟩ f).sock fid2).sock = some conn
    ∧ (AppJs.downloadClick (AppJs.onMessageC ⟨ui, some conn⟩ f).ui raw
        (AppJs.onMessageC ⟨ui, some conn⟩ f).sock fid2).created = false := by
  refine ⟨rfl, by simp [AppJs.connectSocket, hopen], by simp [Part003.connectSocket, hopen],
    ?_, ?_⟩
  · exact (downloadClick_reuses_open_socket (AppJs.onMessageC ⟨ui, some conn⟩ f).ui conn raw
      fid2 hopen hraw).1
  · exact (downloadClick_reuses_open_socket (AppJs.onMessageC ⟨ui, some conn⟩ f).ui conn raw
      fid2 hopen hraw).2

theorem terminal_frame_keeps_socket_witness :
    (AppJs.onMessageC ⟨AppJs.initAUi, some ⟨7, ReadyState.opened⟩⟩
        (AppJs.WsFrame.resultF (some "text") (some "en") none none)).sock =
      some ⟨7, ReadyState.opened⟩
    ∧ AppJs.connectSocket (some ⟨7, ReadyState.opened⟩) 1 = (⟨7, ReadyState.opened⟩, false)
    ∧ Part003.connectSocket (some ⟨7, ReadyState.opened⟩) 1 = (⟨7, ReadyState.opened⟩, false)
    ∧ (AppJs.downloadClick
        (AppJs.onMessageC ⟨AppJs.initAUi, some ⟨7, ReadyState.opened⟩⟩
          (AppJs.WsFrame.resultF (some "text") (some "en") none none)).ui "abc"
        (AppJs.onMessageC ⟨AppJs.initAUi, some ⟨7, ReadyState.opened⟩⟩
          (AppJs.WsFrame.resultF (some "text") (some "en") none none)).sock 2).sock =
      some ⟨7, ReadyState.opened⟩
    ∧ (AppJs.downloadClick
        (AppJs.onMessageC ⟨AppJs.initAUi, some ⟨7, ReadyState.opened⟩⟩
          (AppJs.WsFrame.resultF (some "text") (some "en") none none)).ui "abc"
        (AppJs.onMessageC ⟨AppJs.initAUi, some ⟨7, ReadyState.opened⟩⟩
          (AppJs.WsFrame.resultF (some "text") (some "en") none none)).sock 2).created =
      false :=
  terminal_frame_keeps_socket AppJs.initAUi ⟨7, ReadyState.opened⟩
    (AppJs.WsFrame.resultF (some "text") (some "en") none none) 1 2 "abc"
    (by decide) rfl (by decide)

/-! ## URL normalization (`normalizeSocketUrl`)

`normalizeSocketUrl` in `docs/app.js` (lines 33-60; identical in
`src/unnamed/part_000` lines 69-96) relies on the WHATWG `URL` host API.
`UrlM` and `parseUrl` model that API for the inputs the client constructs:
scheme `://` authority (with optional userinfo and port) and a path.
Simplifications of the host API, stated here for the record: userinfo is
only stripped, query and fragment are dropped (the client never inspects
them), percent-encoding and IPv6 host brackets are not modelled, and a port
equal to the scheme default is kept rather than elided.  Parse failure
(`none`) models the `URL` constructor throwing, which the source catches by
returning the default socket URL. -/

/-- A parsed URL: lowercased scheme and host, optional numeric port, path. -/
structure UrlM where
  scheme : String
  host : String
  port : Option Nat
  path : String
deriving DecidableEq

/-- Fields of `window.location` the client reads: `protocol` (with the
trailing colon, e.g. `"https:"`), `hostname`, and `port` (`none` models the
empty string of a default port). -/
structure Loc where
  protocol : String
  hostname : String
  port : Option Nat
deriving DecidableEq

/-- Lowercase a character list. -/
def lowerL (l : List Char) : List Char := l.map Char.toLower

/-- Case-insensitive letter classes used by the scheme regular expressions
`/^wss?:\/\//i` and `/^https?:\/\//i`. -/
def isW (c : Char) : Bool := c == 'w' || c == 'W'

/-- See `isW`. -/
def isS (c : Char) : Bool := c == 's' || c == 'S'

/-- See `isW`. -/
def isH (c : Char) : Bool := c == 'h' || c == 'H'

/-- See `isW`. -/
def isT (c : Char) : Bool := c == 't' || c == 'T'

/-- See `isW`. -/
def isP (c : Char) : Bool := c == 'p' || c == 'P'

/-- The character-list form of the test `/^wss?:\/\//i.test(trimmed)`
(`docs/app.js` line 40): a case-insensitive `ws://` or `wss://` prefix. -/
def matchWsSchemeL : List Char → Bool
  | a :: b :: ':' :: '/' :: '/' :: _ => isW a && isS b
  | a :: b :: c :: ':' :: '/' :: '/' :: _ => isW a && isS b && isS c
  | _ => false

/-- `/^wss?:\/\//i.test(trimmed)` on a string. -/
def matchWsScheme (s : String) : Bool := matchWsSchemeL s.data

/-- The character-list form of the test `/^https?:\/\//i.test(trimmed)`
(`docs/app.js` line 42): a case-insensitive `http://` or `https://`
prefix. -/
def matchHttpSchemeL : List Char → Bool
  | a :: b :: c :: d :: ':' :: '/' :: '/' :: _ => isH a && isT b && isT c && isP d
  | a :: b :: c :: d :: e :: ':' :: '/' :: '/' :: _ => isH a && isT b && isT c && isP d && isS e
  | _ => false

/-- `/^https?:\/\//i.test(trimmed)` on a string. -/
def matchHttpScheme (s : String) : Bool := matchHttpSchemeL s.data

/-- A character allowed in a URL scheme. -/
def isSchemeChar (c : Char) : Bool :=
  c.isAlpha || c.isDigit || c == '+' || c == '-' || c == '.'

/-- Numeric value of a digit string. -/
def digitsToNat (l : List Char) : Nat := l.foldl (fun n c => n * 10 + (c.toNat - 48)) 0

/-- Strip `userinfo@` from an authority: keep what follows the last `@`. -/
def dropUserinfo (auth : List Char) : List Char :=
  if auth.contains '@' then (auth.reverse.takeWhile (· != '@')).reverse else auth

/-- The path of what follows the authority: a `/`-initial segment up to a
query or fragment, else the root path `/` (special schemes always have a
non-empty pathname). -/
def pathOf (rest : List Char) : List Char :=
  match rest with
  | '/' :: _ => rest.takeWhile (fun c => c != '?' && c != '#')
  | _ => ['/']

/-- Parse the part after `scheme://`: authority (host, optional numeric
port below 65536, userinfo stripped) and path.  An empty host or a
non-numeric/oversized port is a parse failure, as in the `URL`
constructor. -/
def parseTail (rest2 : List Char) : Option (String × Option Nat × String) :=
  let auth := rest2.takeWhile (fun c => c != '/' && c != '?' && c != '#')
  let after := rest2.dropWhile (fun c => c != '/' && c != '?' && c != '#')
  let hostport := dropUserinfo auth
  let host := hostport.takeWhile (· != ':')
  let portStr := (hostport.dropWhile (· != ':')).drop 1
  if host.isEmpty then none
  else if portStr.isEmpty then some (String.mk (lowerL host), none, String.mk (pathOf after))
  else if portStr.all Char.isDigit && digitsToNat portStr < 65536 then
    some (String.mk (lowerL host), some (digitsToNat portStr), String.mk (pathOf after))
  else none

/-- Model of `new URL(s)` for absolute URLs of special schemes, on the
character list: lowercased scheme before `://`, then authority and path via
`parseTail`. -/
def parseUrlL (cs : List Char) : Option UrlM :=
  match cs.dropWhile isSchemeChar with
  | ':' :: '/' :: '/' :: rest2 =>
      if (cs.takeWhile isSchemeChar).isEmpty then none
      else (parseTail rest2).map
        (fun t => ⟨String.mk (lowerL (cs.takeWhile isSchemeChar)), t.1, t.2.1, t.2.2⟩)
  | _ => none

/-- Model of `new URL(s)`. -/
def parseUrl (s : String) : Option UrlM := parseUrlL s.data

/-- `s` ends with `suf` (JavaScript `String.prototype.endsWith`). -/
def strEndsWith (s suf : String) : Bool := suf.data.isSuffixOf s.data

namespace AppJs

/-- `defaultSocketUrl` from `docs/app.js` (lines 28-31), at the model
level: `ws(s)://<hostname>:<port || 8080>/ws`. -/
def defaultSocketUrlM (loc : Loc) : UrlM :=
  ⟨if loc.protocol = "https:" then "wss" else "ws", loc.hostname,
    some (loc.port.getD 8080), "/ws"⟩

/-- `url.toString()` on the model. -/
def urlToString (u : UrlM) : String :=
  u.scheme ++ "://" ++ u.host ++
    (match u.port with | some p => ":" ++ toString p | none => "") ++ u.path

/-- `pathname.replace(/\/+$/, "")` (line 53): drop trailing slashes. -/
def stripTrailingSlashes (p : List Char) : List Char :=
  (p.reverse.dropWhile (· == '/')).reverse

/-- The pathname fix-up of `normalizeSocketUrl` (lines 50-54): an empty or
root pathname becomes `/ws`; a pathname not already ending in `/ws` gets
`/ws` appended after trailing slashes are removed. -/
def fixPath (u : UrlM) : UrlM :=
  if u.path = "" ∨ u.path = "/" then { u with path := "/ws" }
  else if strEndsWith u.path "/ws" then u
  else { u with path := String.mk (stripTrailingSlashes u.path.data) ++ "/ws" }

/-- The scheme string used for a bare address (line 46):
`location.protocol === "https:" ? "wss:" : "ws:"`. -/
def wsProtoStr (loc : Loc) : String :=
  if loc.protocol = "https:" then "wss:" else "ws:"

/-- The `try` block of `normalizeSocketUrl` (lines 38-55): pick the branch
by the scheme tests, parse (a failure propagates as `none`, modelling the
caught exception), map `http(s)` to `ws(s)`, and fix up the pathname. -/
def tryNormalize (loc : Loc) (trimmed : String) : Option UrlM :=
  if matchWsScheme trimmed then (parseUrl trimmed).map fixPath
  else if matchHttpScheme trimmed then
    (parseUrl trimmed).map
      (fun u => fixPath { u with scheme := if u.scheme = "https" then "wss" else "ws" })
  else (parseUrl (wsProtoStr loc ++ "//" ++ trimmed)).map fixPath

/-- `normalizeSocketUrl` from `docs/app.js` (lines 33-60) at the model
level: empty trimmed input or any parse failure yields the default socket
URL. -/
def normalizeSocketUrlM (loc : Loc) (value : String) : UrlM :=
  let trimmed := jsTrim value
  if trimmed = "" then defaultSocketUrlM loc
  else (tryNormalize loc trimmed).getD (defaultSocketUrlM loc)

/-- `normalizeSocketUrl`'s actual string return value. -/
def normalizeSocketUrl (loc : Loc) (value : String) : String :=
  urlToString (normalizeSocketUrlM loc value)

end AppJs

theorem strEndsWith_mk_append (xs : List Char) (suf : String) :
    strEndsWith (String.mk xs ++ suf) suf = true := by
  simp [strEndsWith]

theorem fixPath_path (u : UrlM) : strEndsWith (AppJs.fixPath u).path "/ws" = true := by
  unfold AppJs.fixPath
  by_cases h1 : u.path = "" ∨ u.path = "/"
  · rw [if_pos h1]
    show strEndsWith "/ws" "/ws" = true
    decide
  · rw [if_neg h1]
    by_cases h2 : strEndsWith u.path "/ws" = true
    · rw [if_pos h2]; exact h2
    · rw [if_neg h2]; exact strEndsWith_mk_append _ _

theorem fixPath_preserves (u : UrlM) :
    (AppJs.fixPath u).scheme = u.scheme ∧ (AppJs.fixPath u).host = u.host
    ∧ (AppJs.fixPath u).port = u.port := by
  unfold AppJs.fixPath
  by_cases h1 : u.path = "" ∨ u.path = "/"
  · rw [if_pos h1]; exact ⟨rfl, rfl, rfl⟩
  · rw [if_neg h1]
    by_cases h2 : strEndsWith u.path "/ws" = true
    · rw [if_pos h2]; exact ⟨rfl, rfl, rfl⟩
    · rw [if_neg h2]; exact ⟨rfl, rfl, rfl⟩

theorem parseUrlL_scheme (cs : List Char) (u : UrlM) (hp : parseUrlL cs = some u) :
    u.scheme = String.mk (lowerL (cs.takeWhile isSchemeChar)) := by
  unfold parseUrlL at hp
  split at hp
  · split at hp
    · cases hp
    · obtain ⟨t, _, hft⟩ := Option.map_eq_some'.mp hp
      rw [← hft]
  · cases hp

theorem matchWsL_scheme_chars (cs : List Char) (hm : matchWsSchemeL cs = true) :
    lowerL (cs.takeWhile isSchemeChar) = "ws".data
    ∨ lowerL (cs.takeWhile isSchemeChar) = "wss".data := by
  unfold matchWsSchemeL at hm
  split at hm
  · simp only [isW, isS, Bool.and_eq_true, Bool.or_eq_true, beq_iff_eq] at hm
    obtain ⟨ha, hb⟩ := hm
    left
    rcases ha with rfl | rfl <;> rcases hb with rfl | rfl <;>
      rw [List.takeWhile_cons_of_pos (by decide), List.takeWhile_cons_of_pos (by decide),
        List.takeWhile_cons_of_neg (by decide)] <;> decide
  · simp only [isW, isS, Bool.and_eq_true, Bool.or_eq_true, beq_iff_eq] at hm
    obtain ⟨⟨ha, hb⟩, hc⟩ := hm
    right
    rcases ha with rfl | rfl <;> rcases hb with rfl | rfl <;> rcases hc with rfl | rfl <;>
      rw [List.takeWhile_cons_of_pos (by decide), List.takeWhile_cons_of_pos (by decide),
        List.takeWhile_cons_of_pos (by decide), List.takeWhile_cons_of_neg (by decide)] <;>
      decide
  · exact absurd hm (by simp)

theorem matchWsL_head (cs : List Char) (h : matchWsSchemeL cs = true) :
    ∃ a t, cs = a :: t ∧ isW a = true := by
  unfold matchWsSchemeL at h
  split at h
  · simp only [Bool.and_eq_true] at h
    exact ⟨_, _, rfl, h.1⟩
  · simp only [Bool.and_eq_true] at h
    exact ⟨_, _, rfl, h.1.1⟩
  · exact absurd h (by simp)

theorem matchHttpL_head (cs : List Char) (h : matchHttpSchemeL cs = true) :
    ∃ a t, cs = a :: t ∧ isH a = true := by
  unfold matchHttpSchemeL at h
  split at h
  · simp only [Bool.and_eq_true] at h
    exact ⟨_, _, rfl, h.1.1.1⟩
  · simp only [Bool.and_eq_true] at h
    exact ⟨_, _, rfl, h.1.1.1.1⟩
  · exact absurd h (by simp)

theorem matchHttp_not_matchWs (s : String) (hh : matchHttpScheme s = true) :
    matchWsScheme s = false := by
  cases hws : matchWsScheme s
  · rfl
  · exfalso
    obtain ⟨a, t1, he1, ha1⟩ := matchWsL_head s.data hws
    obtain ⟨a2, t2, he2, ha2⟩ := matchHttpL_head s.data hh
    rw [he1] at he2
    injection he2 with h1 h2
    subst h1
    simp only [isW, Bool.or_eq_true, beq_iff_eq] at ha1
    rcases ha1 with rfl | rfl <;> exact absurd ha2 (by decide)

theorem matchHttp_ne_empty (s : String) (hh : matchHttpScheme s = true) : s ≠ "" := by
  intro he
  rw [he] at hh
  exact absurd hh (by decide)

theorem parse_wsPrefix_scheme (p t : String) (u : UrlM)
    (hws : p = "ws:" ∨ p = "wss:")
    (hp : parseUrl (p ++ "//" ++ t) = some u) :
    u.scheme = "ws" ∨ u.scheme = "wss" := by
  have hs := parseUrlL_scheme (p ++ "//" ++ t).data u hp
  rcases hws with rfl | rfl
  · left
    rw [hs]
    have hd : ("ws:" ++ "//" ++ t).data = 'w' :: 's' :: ':' :: '/' :: '/' :: t.data := rfl
    rw [hd, List.takeWhile_cons_of_pos (by decide), List.takeWhile_cons_of_pos (by decide),
      List.takeWhile_cons_of_neg (by decide)]
    decide
  · right
    rw [hs]
    have hd : ("wss:" ++ "//" ++ t).data = 'w' :: 's' :: 's' :: ':' :: '/' :: '/' :: t.data := rfl
    rw [hd, List.takeWhile_cons_of_pos (by decide), List.takeWhile_cons_of_pos (by decide),
      List.takeWhile_cons_of_pos (by decide), List.takeWhile_cons_of_neg (by decide)]
    decide

theorem tryNormalize_some_spec (loc : Loc) (t : String) (u' : UrlM)
    (h : AppJs.tryNormalize loc t = some u') :
    (u'.scheme = "ws" ∨ u'.scheme = "wss") ∧ strEndsWith u'.path "/ws" = true := by
  unfold AppJs.tryNormalize at h
  by_cases h1 : matchWsScheme t = true
  · rw [if_pos h1] at h
    obtain ⟨u, hp, rfl⟩ := Option.map_eq_some'.mp h
    refine ⟨?_, fixPath_path u⟩
    rw [(fixPath_preserves u).1, parseUrlL_scheme t.data u hp]
    rcases matchWsL_scheme_chars t.data h1 with hm | hm <;> rw [hm]
    · left; rfl
    · right; rfl
  · rw [if_neg h1] at h
    by_cases h2 : matchHttpScheme t = true
    · rw [if_pos h2] at h
      obtain ⟨u, hp, rfl⟩ := Option.map_eq_some'.mp h
      refine ⟨?_, fixPath_path _⟩
      rw [(fixPath_preserves _).1]
      show (if u.scheme = "https" then "wss" else "ws") = "ws"
        ∨ (if u.scheme = "https" then "wss" else "ws") = "wss"
      by_cases hh : u.scheme = "https"
      · right; rw [if_pos hh]
      · left; rw [if_neg hh]
    · rw [if_neg h2] at h
      obtain ⟨u, hp, rfl⟩ := Option.map_eq_some'.mp h
      refine ⟨?_, fixPath_path _⟩
      rw [(fixPath_preserves u).1]
      refine parse_wsPrefix_scheme (AppJs.wsProtoStr loc) t u ?_ hp
      unfold AppJs.wsProtoStr
      by_cases hl : loc.protocol = "https:"
      · right; rw [if_pos hl]
      · left; rw [if_neg hl]

/-! ## Text normalization and preview (`setPreview`)

`setPreview` in `src/unnamed/part_003` (lines 22-31) normalizes the subtitle
text with `text.replace(/\s+/g, " ").trim()` and shows a beginning and an
ending excerpt of at most 400 characters.  `collapseWs` models the regular
expression replacement (each maximal whitespace run becomes one space);
`wordsOf`/`joinWords` give the specification-level reading — the maximal
non-whitespace runs joined by single spaces — proved equal to the code's
collapse-then-trim below. -/

/-- Strong induction on list length. -/
theorem list_length_ind {α : Type} {P : List α → Prop}
    (ind : ∀ l, (∀ l2 : List α, l2.length < l.length → P l2) → P l) : ∀ l, P l := by
  have haux : ∀ n (l : List α), l.length ≤ n → P l := by
    intro n
    induction n with
    | zero =>
      intro l hl
      refine ind l ?_
      intro l2 hl2
      exact absurd hl2 (by omega)
    | succ n ihn =>
      intro l hl
      refine ind l ?_
      intro l2 hl2
      exact ihn l2 (by omega)
  intro l
  exact haux l.length l Nat.le.refl

/-- Scanner for `text.replace(/\s+/g, " ")`: the flag records whether the
scanner is inside a whitespace run (whose first character already emitted
the single replacement space). -/
def collapseAux : Bool → List Char → List Char
  | _, [] => []
  | prev, c :: rest =>
    if c.isWhitespace then
      if prev then collapseAux true rest else ' ' :: collapseAux true rest
    else c :: collapseAux false rest

/-- `text.replace(/\s+/g, " ")`: every maximal whitespace run becomes a
single space. -/
def collapseWs (l : List Char) : List Char := collapseAux false l

theorem collapseAux_true_dropWhile (l : List Char) :
    collapseAux true l = collapseAux false (l.dropWhile Char.isWhitespace) := by
  induction l with
  | nil => rfl
  | cons c rest ih =>
    by_cases hc : c.isWhitespace = true
    · rw [List.dropWhile_cons_of_pos hc]
      simpa [collapseAux, hc] using ih
    · rw [List.dropWhile_cons_of_neg (by simpa using hc)]
      have hcf : c.isWhitespace = false := by simpa using hc
      simp [collapseAux, hcf]

/-- `text.replace(/\s+/g, " ").trim()` (`src/unnamed/part_003` line 23). -/
def jsNormalizeText (s : String) : String :=
  jsTrim (String.mk (collapseWs s.data))

/-- JavaScript `s.slice(a, b)` for non-negative in-range-clamped indices. -/
def jsSlice (s : String) (a b : Nat) : String := String.mk ((s.data.take b).drop a)

/-- JavaScript `s.slice(a)` for a non-negative start index. -/
def jsSliceFrom (s : String) (a : Nat) : String := String.mk (s.data.drop a)

/-- The maximal non-whitespace runs of a character list, in order. -/
def wordsOf : List Char → List (List Char)
  | [] => []
  | c :: rest =>
    if c.isWhitespace then wordsOf rest
    else (c :: rest.takeWhile (fun x => !x.isWhitespace)) ::
      wordsOf (rest.dropWhile (fun x => !x.isWhitespace))
termination_by l => l.length
decreasing_by
  · simp only [List.length_cons]
    exact Nat.lt_succ_self _
  · simp only [List.length_cons]
    exact Nat.lt_succ_of_le ((List.dropWhile_suffix _).length_le)

/-- Words joined by single spaces. -/
def joinWords : List (List Char) → List Char
  | [] => []
  | [w] => w
  | w :: ws => w ++ ' ' :: joinWords ws

/-- The single leading space `collapseWs` leaves when its input starts with
whitespace. -/
def optLead (l : List Char) : List Char :=
  match l.head? with
  | some c => if c.isWhitespace then [' '] else []
  | none => []

/-- The single trailing space `collapseWs` leaves when its input ends with
whitespace. -/
def optTrail (l : List Char) : List Char :=
  match l.getLast? with
  | some c => if c.isWhitespace then [' '] else []
  | none => []

theorem collapseWs_nil : collapseWs [] = [] := rfl

theorem collapseWs_cons_ws (c : Char) (rest : List Char) (hc : c.isWhitespace = true) :
    collapseWs (c :: rest) = ' ' :: collapseWs (rest.dropWhile Char.isWhitespace) := by
  unfold collapseWs
  rw [← collapseAux_true_dropWhile]
  simp [collapseAux, hc]

theorem collapseWs_cons_nws (c : Char) (rest : List Char) (hc : c.isWhitespace = false) :
    collapseWs (c :: rest) = c :: collapseWs rest := by
  unfold collapseWs
  simp [collapseAux, hc]

theorem wordsOf_nil : wordsOf [] = [] := by simp [wordsOf]

theorem wordsOf_cons_ws (c : Char) (rest : List Char) (hc : c.isWhitespace = true) :
    wordsOf (c :: rest) = wordsOf rest := by
  simp [wordsOf, hc]

theorem wordsOf_cons_nws (c : Char) (rest : List Char) (hc : c.isWhitespace = false) :
    wordsOf (c :: rest) =
      (c :: rest.takeWhile (fun x => !x.isWhitespace)) ::
        wordsOf (rest.dropWhile (fun x => !x.isWhitespace)) := by
  simp [wordsOf, hc]

theorem joinWords_cons_of_ne_nil (w : List Char) (ws : List (List Char)) (h : ws ≠ []) :
    joinWords (w :: ws) = w ++ ' ' :: joinWords ws := by
  cases ws with
  | nil => exact absurd rfl h
  | cons a t => rfl

namespace Part003

/-- `x || "-"`: display a dash for the empty string. -/
def orDash (s : String) : String := if s = "" then "-" else s

/-- `setPreview` from `src/unnamed/part_003` (lines 22-31): collapse
whitespace and trim, then show the first 400 characters and — when the
normalized text is longer than 400 — the last 400 characters, the whole text
otherwise; empty text displays `-` in both panes.  `Math.max(0, length -
previewSize)` is the truncated subtraction on `Nat`. -/
def setPreview (text : String) : String × String :=
  let normalized := jsNormalizeText text
  let length := normalized.data.length
  let previewSize := 400
  (orDash (jsSlice normalized 0 previewSize),
   if length > previewSize then jsSliceFrom normalized (length - previewSize)
   else orDash normalized)

end Part003

theorem dropWhile_cons_head (p : Char → Bool) (l : List Char) (a : Char) (t : List Char)
    (h : l.dropWhile p = a :: t) : p a = false := by
  have hh := List.head?_dropWhile_not p l
  rw [h] at hh
  simpa using hh

theorem wordsOf_nil_iff : ∀ l : List Char,
    (wordsOf l = [] ↔ ∀ c ∈ l, c.isWhitespace = true) := by
  intro l
  induction l with
  | nil => simp [wordsOf_nil]
  | cons c rest ih =>
    by_cases hc : c.isWhitespace = true
    · rw [wordsOf_cons_ws c rest hc, ih]
      constructor
      · intro h x hx
        rcases List.mem_cons.mp hx with rfl | hx'
        · exact hc
        · exact h x hx'
      · intro h x hx
        exact h x (List.mem_cons_of_mem _ hx)
    · have hcf : c.isWhitespace = false := by simpa using hc
      rw [wordsOf_cons_nws c rest hcf]
      constructor
      · intro h
        exact absurd h (by simp)
      · intro h
        exact absurd (h c (List.mem_cons_self _ _)) (by simp [hcf])

theorem collapse_all_ws (l : List Char) (h : ∀ c ∈ l, c.isWhitespace = true) :
    collapseWs l = if l = [] then [] else [' '] := by
  cases l with
  | nil => simp [collapseWs_nil]
  | cons c rest =>
    have hc := h c (List.mem_cons_self _ _)
    have hr : rest.dropWhile Char.isWhitespace = [] :=
      List.dropWhile_eq_nil_iff.mpr (fun x hx => h x (List.mem_cons_of_mem _ hx))
    rw [collapseWs_cons_ws c rest hc, hr, collapseWs_nil]
    simp

theorem wordsOf_dropWhile_ws (l : List Char) :
    wordsOf (l.dropWhile Char.isWhitespace) = wordsOf l := by
  induction l with
  | nil => rfl
  | cons c rest ih =>
    by_cases hc : c.isWhitespace = true
    · rw [List.dropWhile_cons_of_pos hc, ih, wordsOf_cons_ws c rest hc]
    · rw [List.dropWhile_cons_of_neg (by simpa using hc)]

theorem wordsOf_words : ∀ l : List Char,
    ∀ w ∈ wordsOf l, w ≠ [] ∧ ∀ c ∈ w, c.isWhitespace = false := by
  refine list_length_ind ?_
  intro l ih
  cases l with
  | nil => intro w hw; rw [wordsOf_nil] at hw; cases hw
  | cons c rest =>
    by_cases hc : c.isWhitespace = true
    · rw [wordsOf_cons_ws c rest hc]
      exact ih rest (by simp)
    · have hcf : c.isWhitespace = false := by simpa using hc
      rw [wordsOf_cons_nws c rest hcf]
      intro w hw
      rcases List.mem_cons.mp hw with rfl | hw'
      · refine ⟨by simp, ?_⟩
        intro x hx
        rcases List.mem_cons.mp hx with rfl | hx'
        · exact hcf
        · simpa using List.mem_takeWhile_imp hx'
      · refine ih (rest.dropWhile (fun x => !x.isWhitespace)) ?_ w hw'
        simp only [List.length_cons]
        exact Nat.lt_succ_of_le ((List.dropWhile_suffix _).length_le)

theorem collapseWs_nonws_append (w y : List Char) (hw : ∀ x ∈ w, x.isWhitespace = false) :
    collapseWs (w ++ y) = w ++ collapseWs y := by
  induction w with
  | nil => simp
  | cons a t ih =>
    have ha := hw a (List.mem_cons_self _ _)
    rw [List.cons_append, collapseWs_cons_nws a _ ha,
      ih (fun x hx => hw x (List.mem_cons_of_mem _ hx))]
    rfl

theorem getLast?_cons_of_ne_nil (a : Char) (l : List Char) (h : l ≠ []) :
    (a :: l).getLast? = l.getLast? := by
  cases l with
  | nil => exact absurd rfl h
  | cons b t => exact List.getLast?_cons_cons

theorem optTrail_cons_of_ne_nil (c : Char) (l : List Char) (h : l ≠ []) :
    optTrail (c :: l) = optTrail l := by
  unfold optTrail
  rw [getLast?_cons_of_ne_nil c l h]

theorem optTrail_append_of_ne_nil (l1 l2 : List Char) (h : l2 ≠ []) :
    optTrail (l1 ++ l2) = optTrail l2 := by
  unfold optTrail
  rw [List.getLast?_append]
  cases hl : l2.getLast? with
  | none => exact absurd (List.getLast?_eq_none_iff.mp hl) h
  | some y => rfl

theorem optTrail_all_nws (l : List Char) (h : ∀ x ∈ l, x.isWhitespace = false) :
    optTrail l = [] := by
  unfold optTrail
  cases hl : l.getLast? with
  | none => rfl
  | some y =>
    have hy := h y (List.mem_of_getLast?_eq_some hl)
    simp [hy]

theorem optTrail_all_ws (l : List Char) (hne : l ≠ []) (h : ∀ x ∈ l, x.isWhitespace = true) :
    optTrail l = [' '] := by
  unfold optTrail
  cases hl : l.getLast? with
  | none => exact absurd (List.getLast?_eq_none_iff.mp hl) hne
  | some y =>
    have hy := h y (List.mem_of_getLast?_eq_some hl)
    simp [hy]

theorem optLead_cons (c : Char) (l : List Char) :
    optLead (c :: l) = if c.isWhitespace then [' '] else [] := rfl

theorem collapse_spec : ∀ l : List Char, wordsOf l ≠ [] →
    collapseWs l = optLead l ++ joinWords (wordsOf l) ++ optTrail l := by
  refine list_length_ind ?_
  intro l ih hne
  cases l with
  | nil => exact absurd wordsOf_nil hne
  | cons c rest =>
    by_cases hc : c.isWhitespace = true
    · -- leading whitespace: one space, then recurse past the run
      have hwr : wordsOf (rest.dropWhile Char.isWhitespace) = wordsOf rest :=
        wordsOf_dropWhile_ws rest
      have hne' : wordsOf (rest.dropWhile Char.isWhitespace) ≠ [] := by
        rw [hwr]
        rw [wordsOf_cons_ws c rest hc] at hne
        exact hne
      have hr'ne : rest.dropWhile Char.isWhitespace ≠ [] := by
        intro h0
        rw [h0, wordsOf_nil] at hne'
        exact hne' rfl
      have hIH := ih (rest.dropWhile Char.isWhitespace)
        (by
          simp only [List.length_cons]
          exact Nat.lt_succ_of_le ((List.dropWhile_suffix _).length_le)) hne'
      have hlead' : optLead (rest.dropWhile Char.isWhitespace) = [] := by
        cases hat : rest.dropWhile Char.isWhitespace with
        | nil => exact absurd hat hr'ne
        | cons a t =>
          have ha : a.isWhitespace = false := dropWhile_cons_head _ rest a t hat
          rw [optLead_cons, if_neg (by simp [ha])]
      have hrne : rest ≠ [] := by
        intro h0
        exact hr'ne (by simp [h0])
      have htrail : optTrail (c :: rest) = optTrail (rest.dropWhile Char.isWhitespace) := by
        rw [optTrail_cons_of_ne_nil c rest hrne]
        conv_lhs => rw [← List.takeWhile_append_dropWhile Char.isWhitespace rest]
        exact optTrail_append_of_ne_nil _ _ hr'ne
      rw [collapseWs_cons_ws c rest hc, hIH, hlead', wordsOf_cons_ws c rest hc, ← hwr,
        htrail, optLead_cons, if_pos hc]
      simp
    · have hcf : c.isWhitespace = false := by simpa using hc
      have hsplit : rest.takeWhile (fun x => !x.isWhitespace) ++
          rest.dropWhile (fun x => !x.isWhitespace) = rest :=
        List.takeWhile_append_dropWhile _ _
      have hwnws : ∀ x ∈ rest.takeWhile (fun x => !x.isWhitespace), x.isWhitespace = false :=
        fun x hx => by simpa using List.mem_takeWhile_imp hx
      have hcol : collapseWs (c :: rest) =
          c :: (rest.takeWhile (fun x => !x.isWhitespace) ++
            collapseWs (rest.dropWhile (fun x => !x.isWhitespace))) := by
        rw [collapseWs_cons_nws c rest hcf]
        conv_lhs => rw [← hsplit]
        rw [collapseWs_nonws_append _ _ hwnws]
      have hlead : optLead (c :: rest) = [] := by
        rw [optLead_cons, if_neg (by simp [hcf])]
      by_cases hz : wordsOf (rest.dropWhile (fun x => !x.isWhitespace)) = []
      · -- the remainder is all whitespace (or empty)
        have hallws := (wordsOf_nil_iff _).mp hz
        have hwords : wordsOf (c :: rest) =
            [c :: rest.takeWhile (fun x => !x.isWhitespace)] := by
          rw [wordsOf_cons_nws c rest hcf, hz]
        rw [hcol, hwords, hlead, collapse_all_ws _ hallws]
        by_cases hr2e : rest.dropWhile (fun x => !x.isWhitespace) = []
        · rw [if_pos hr2e]
          have htr : optTrail (c :: rest) = [] := by
            apply optTrail_all_nws
            intro x hx
            rcases List.mem_cons.mp hx with rfl | hx'
            · exact hcf
            · apply hwnws
              rw [← hsplit, hr2e, List.append_nil] at hx'
              exact hx'
          rw [htr]
          simp [joinWords]
        · rw [if_neg hr2e]
          have hrne : rest ≠ [] := by
            intro h0
            exact hr2e (by simp [h0])
          have htr : optTrail (c :: rest) = [' '] := by
            rw [optTrail_cons_of_ne_nil c rest hrne]
            conv_lhs => rw [← hsplit]
            rw [optTrail_append_of_ne_nil _ _ hr2e]
            exact optTrail_all_ws _ hr2e hallws
          rw [htr]
          simp [joinWords]
      · -- the remainder contains further words
        have hIH := ih (rest.dropWhile (fun x => !x.isWhitespace))
          (by
            simp only [List.length_cons]
            exact Nat.lt_succ_of_le ((List.dropWhile_suffix _).length_le)) hz
        have hr2ne : rest.dropWhile (fun x => !x.isWhitespace) ≠ [] := by
          intro h0
          rw [h0, wordsOf_nil] at hz
          exact hz rfl
        have hlead2 : optLead (rest.dropWhile (fun x => !x.isWhitespace)) = [' '] := by
          cases hat : rest.dropWhile (fun x => !x.isWhitespace) with
          | nil => exact absurd hat hr2ne
          | cons a t =>
            have ha := dropWhile_cons_head _ rest a t hat
            have ha' : a.isWhitespace = true := by simpa using ha
            rw [optLead_cons, if_pos ha']
        have hwords : wordsOf (c :: rest) =
            (c :: rest.takeWhile (fun x => !x.isWhitespace)) ::
              wordsOf (rest.dropWhile (fun x => !x.isWhitespace)) :=
          wordsOf_cons_nws c rest hcf
        have hrne : rest ≠ [] := by
          intro h0
          exact hr2ne (by simp [h0])
        have htr : optTrail (c :: rest) =
            optTrail (rest.dropWhile (fun x => !x.isWhitespace)) := by
          rw [optTrail_cons_of_ne_nil c rest hrne]
          conv_lhs => rw [← hsplit]
          exact optTrail_append_of_ne_nil _ _ hr2ne
        rw [hcol, hIH, hlead2, hwords, joinWords_cons_of_ne_nil _ _ hz, hlead, htr]
        simp

theorem joinWords_head (ws : List (List Char)) (hne : ws ≠ [])
    (hw : ∀ w ∈ ws, w ≠ [] ∧ ∀ c ∈ w, c.isWhitespace = false) :
    ∃ x xs, joinWords ws = x :: xs ∧ x.isWhitespace = false := by
  cases ws with
  | nil => exact absurd rfl hne
  | cons w rest =>
    obtain ⟨hwne, hwnws⟩ := hw w (List.mem_cons_self _ _)
    cases w with
    | nil => exact absurd rfl hwne
    | cons x xt =>
      cases rest with
      | nil => exact ⟨x, xt, rfl, hwnws x (List.mem_cons_self _ _)⟩
      | cons r rs =>
        exact ⟨x, xt ++ ' ' :: joinWords (r :: rs), rfl, hwnws x (List.mem_cons_self _ _)⟩

theorem joinWords_last : ∀ ws : List (List Char), ws ≠ [] →
    (∀ w ∈ ws, w ≠ [] ∧ ∀ c ∈ w, c.isWhitespace = false) →
    ∃ ys y, joinWords ws = ys ++ [y] ∧ y.isWhitespace = false := by
  intro ws
  induction ws with
  | nil => intro h; exact absurd rfl h
  | cons w rest ih =>
    intro _ hw
    obtain ⟨hwne, hwnws⟩ := hw w (List.mem_cons_self _ _)
    cases rest with
    | nil =>
      rcases List.eq_nil_or_concat w with rfl | ⟨ys, y, hconcat⟩
      · exact absurd rfl hwne
      · refine ⟨ys, y, ?_, ?_⟩
        · show w = ys ++ [y]
          rw [hconcat, List.concat_eq_append]
        · apply hwnws
          rw [hconcat]
          simp
    | cons r rs =>
      obtain ⟨ys, y, hj, hy⟩ := ih (by simp) (fun w2 hw2 => hw w2 (List.mem_cons_of_mem _ hw2))
      refine ⟨w ++ ' ' :: ys, y, ?_, hy⟩
      rw [joinWords_cons_of_ne_nil _ _ (by simp), hj]
      simp

theorem trimStartL_cons_ws_head (c : Char) (hc : c.isWhitespace = true) (l : List Char) :
    trimStartL (c :: l) = trimStartL l :=
  List.dropWhile_cons_of_pos (by simp [jsWs, hc])

theorem trimStartL_cons_nws_head (c : Char) (hc : c.isWhitespace = false) (l : List Char) :
    trimStartL (c :: l) = c :: l :=
  List.dropWhile_cons_of_neg (by simp [jsWs, hc])

theorem trimEndL_append_space (z : List Char) : trimEndL (z ++ [' ']) = trimEndL z := by
  unfold trimEndL
  have h1 : (z ++ [' ']).reverse = ' ' :: z.reverse := by simp
  rw [h1, List.dropWhile_cons_of_pos (by decide)]

theorem trimEndL_concat_nws (z : List Char) (y : Char) (hy : y.isWhitespace = false) :
    trimEndL (z ++ [y]) = z ++ [y] := by
  unfold trimEndL
  have h1 : (z ++ [y]).reverse = y :: z.reverse := by simp
  rw [h1, List.dropWhile_cons_of_neg (by simp [jsWs, hy])]
  simp

theorem optLead_vals (l : List Char) : optLead l = [] ∨ optLead l = [' '] := by
  rcases hh : l.head? with _ | c
  · left
    unfold optLead
    rw [hh]
  · unfold optLead
    rw [hh]
    by_cases hc : c.isWhitespace = true
    · right
      simp [hc]
    · left
      simp [hc]

theorem optTrail_vals (l : List Char) : optTrail l = [] ∨ optTrail l = [' '] := by
  rcases hh : l.getLast? with _ | c
  · left
    unfold optTrail
    rw [hh]
  · unfold optTrail
    rw [hh]
    by_cases hc : c.isWhitespace = true
    · right
      simp [hc]
    · left
      simp [hc]

theorem jsNormalizeText_eq_joinWords (s : String) :
    jsNormalizeText s = String.mk (joinWords (wordsOf s.data)) := by
  show String.mk (trimEndL (trimStartL (collapseWs s.data))) = _
  congr 1
  generalize s.data = l
  by_cases hz : wordsOf l = []
  · rw [hz]
    rw [show trimStartL (collapseWs l) = trimStartL (if l = [] then [] else [' ']) from by
      rw [collapse_all_ws l ((wordsOf_nil_iff l).mp hz)]]
    by_cases hl : l = []
    · rw [if_pos hl]
      rfl
    · rw [if_neg hl]
      decide
  · have hws := wordsOf_words l
    have hspec := collapse_spec l hz
    rw [hspec]
    obtain ⟨x, xs, hjoin, hx⟩ := joinWords_head (wordsOf l) hz hws
    obtain ⟨ys, y, hjlast, hy⟩ := joinWords_last (wordsOf l) hz hws
    have h1 : trimStartL (optLead l ++ joinWords (wordsOf l) ++ optTrail l) =
        joinWords (wordsOf l) ++ optTrail l := by
      rcases optLead_vals l with ho | ho <;> rw [ho]
      · rw [List.nil_append, hjoin, List.cons_append]
        exact trimStartL_cons_nws_head x hx _
      · rw [List.singleton_append, List.cons_append, trimStartL_cons_ws_head ' ' (by decide),
          hjoin, List.cons_append]
        exact trimStartL_cons_nws_head x hx _
    rw [h1]
    rcases optTrail_vals l with ho | ho <;> rw [ho]
    · rw [List.append_nil, hjlast]
      exact trimEndL_concat_nws ys y hy
    · rw [trimEndL_append_space, hjlast]
      exact trimEndL_concat_nws ys y hy

/-- Claim C10: `setPreview` first collapses every whitespace run of its
input to a single space and trims (equivalently: the normalized text is the
input's maximal non-whitespace runs joined by single spaces); the beginning
excerpt is the first 400 characters of the normalized text; the ending
excerpt is its last 400 characters when the normalized length exceeds 400
and the whole normalized text otherwise; when the normalized text is empty
both excerpts display `-`. -/
theorem setPreview_spec (text : String) :
    jsNormalizeText text = String.mk (joinWords (wordsOf text.data))
    ∧ (jsNormalizeText text = "" → Part003.setPreview text = ("-", "-"))
    ∧ (jsNormalizeText text ≠ "" →
        (Part003.setPreview text).1 = String.mk ((jsNormalizeText text).data.take 400))
    ∧ ((jsNormalizeText text).data.length > 400 →
        (Part003.setPreview text).2 =
          String.mk ((jsNormalizeText text).data.drop
            ((jsNormalizeText text).data.length - 400)))
    ∧ (jsNormalizeText text ≠ "" → (jsNormalizeText text).data.length ≤ 400 →
        (Part003.setPreview text).2 = jsNormalizeText text) := by
  refine ⟨jsNormalizeText_eq_joinWords text, ?_, ?_, ?_, ?_⟩
  · intro h
    show (Part003.orDash (jsSlice (jsNormalizeText text) 0 400),
        if (jsNormalizeText text).data.length > 400
        then jsSliceFrom (jsNormalizeText text) ((jsNormalizeText text).data.length - 400)
        else Part003.orDash (jsNormalizeText text)) = ("-", "-")
    rw [h]
    decide
  · intro h
    have hdne : (jsNormalizeText text).data ≠ [] := by
      intro h0
      exact h (String.ext h0)
    show Part003.orDash (jsSlice (jsNormalizeText text) 0 400) =
      String.mk ((jsNormalizeText text).data.take 400)
    unfold jsSlice
    rw [List.drop_zero]
    unfold Part003.orDash
    rw [if_neg ?hne]
    case hne =>
      intro h0
      rw [String.ext_iff] at h0
      have h1 : (jsNormalizeText text).data.take 400 = [] := h0
      rcases List.take_eq_nil_iff.mp h1 with h2 | h2
      · exact absurd h2 (by decide)
      · exact hdne h2
  · intro h
    show (if (jsNormalizeText text).data.length > 400
        then jsSliceFrom (jsNormalizeText text) ((jsNormalizeText text).data.length - 400)
        else Part003.orDash (jsNormalizeText text)) =
      String.mk ((jsNormalizeText text).data.drop ((jsNormalizeText text).data.length - 400))
    rw [if_pos h]
    rfl
  · intro h hlen
    show (if (jsNormalizeText text).data.length > 400
        then jsSliceFrom (jsNormalizeText text) ((jsNormalizeText text).data.length - 400)
        else Part003.orDash (jsNormalizeText text)) = jsNormalizeText text
    rw [if_neg (by omega)]
    unfold Part003.orDash
    rw [if_neg h]

theorem setPreview_spec_witness :
    jsNormalizeText "  hello \t world  " =
      String.mk (joinWords (wordsOf ("  hello \t world  ").data))
    ∧ (Part003.setPreview "  hello \t world  ").1 =
        String.mk ((jsNormalizeText "  hello \t world  ").data.take 400)
    ∧ (Part003.setPreview "  hello \t world  ").2 = jsNormalizeText "  hello \t world  " := by
  have hthm := setPreview_spec "  hello \t world  "
  exact ⟨hthm.1, hthm.2.2.1 (by decide), hthm.2.2.2.2 (by decide) (by decide)⟩

/-- Claim C9: `normalizeSocketUrl` is total over its model and always
produces a URL whose scheme is `ws` or `wss` and whose path ends in `/ws`;
an empty/whitespace-only input, or any input whose branch fails to parse
(the caught exception), yields the default socket URL derived from the page
location; an input with an `http`/`https` scheme is mapped to `ws`/`wss`
respectively with host and port preserved.  The string the source returns
is the rendering of this model value. -/
theorem normalizeSocketUrl_total_safe (loc : Loc) (value : String) :
    ((AppJs.normalizeSocketUrlM loc value).scheme = "ws"
      ∨ (AppJs.normalizeSocketUrlM loc value).scheme = "wss")
    ∧ strEndsWith (AppJs.normalizeSocketUrlM loc value).path "/ws" = true
    ∧ (jsTrim value = "" → AppJs.normalizeSocketUrlM loc value = AppJs.defaultSocketUrlM loc)
    ∧ (AppJs.tryNormalize loc (jsTrim value) = none →
        AppJs.normalizeSocketUrlM loc value = AppJs.defaultSocketUrlM loc)
    ∧ (∀ u, matchHttpScheme (jsTrim value) = true → parseUrl (jsTrim value) = some u →
        (AppJs.normalizeSocketUrlM loc value).host = u.host
        ∧ (AppJs.normalizeSocketUrlM loc value).port = u.port
        ∧ (AppJs.normalizeSocketUrlM loc value).scheme =
            (if u.scheme = "https" then "wss" else "ws"))
    ∧ AppJs.normalizeSocketUrl loc value =
        AppJs.urlToString (AppJs.normalizeSocketUrlM loc value) := by
  have hdef1 : (AppJs.defaultSocketUrlM loc).scheme = "ws"
      ∨ (AppJs.defaultSocketUrlM loc).scheme = "wss" := by
    show (if loc.protocol = "https:" then "wss" else "ws") = "ws"
      ∨ (if loc.protocol = "https:" then "wss" else "ws") = "wss"
    by_cases hl : loc.protocol = "https:"
    · right; rw [if_pos hl]
    · left; rw [if_neg hl]
  have hdef2 : strEndsWith (AppJs.defaultSocketUrlM loc).path "/ws" = true := by
    show strEndsWith "/ws" "/ws" = true
    decide
  by_cases ht : jsTrim value = ""
  · have hnv : AppJs.normalizeSocketUrlM loc value = AppJs.defaultSocketUrlM loc := by
      unfold AppJs.normalizeSocketUrlM
      rw [if_pos ht]
    refine ⟨?_, ?_, fun _ => hnv, fun _ => hnv, ?_, rfl⟩
    · rw [hnv]; exact hdef1
    · rw [hnv]; exact hdef2
    · intro u hmm _
      exact absurd ht (matchHttp_ne_empty _ hmm)
  · cases htry : AppJs.tryNormalize loc (jsTrim value) with
    | none =>
      have hnv : AppJs.normalizeSocketUrlM loc value = AppJs.defaultSocketUrlM loc := by
        unfold AppJs.normalizeSocketUrlM
        rw [if_neg ht, htry]
        rfl
      refine ⟨?_, ?_, fun _ => hnv, fun _ => hnv, ?_, rfl⟩
      · rw [hnv]; exact hdef1
      · rw [hnv]; exact hdef2
      · intro u hmm hp
        exfalso
        have hws0 : matchWsScheme (jsTrim value) = false := matchHttp_not_matchWs _ hmm
        unfold AppJs.tryNormalize at htry
        rw [if_neg (by simp [hws0]), if_pos hmm, hp] at htry
        cases htry
    | some u' =>
      have hnv : AppJs.normalizeSocketUrlM loc value = u' := by
        unfold AppJs.normalizeSocketUrlM
        rw [if_neg ht, htry]
        rfl
      have hspec := tryNormalize_some_spec loc (jsTrim value) u' htry
      refine ⟨?_, ?_, fun h0 => absurd h0 ht, ?_, ?_, rfl⟩
      · rw [hnv]; exact hspec.1
      · rw [hnv]; exact hspec.2
      · intro h0
        exact Option.noConfusion h0
      · intro u hmm hp
        have hws0 : matchWsScheme (jsTrim value) = false := matchHttp_not_matchWs _ hmm
        unfold AppJs.tryNormalize at htry
        rw [if_neg (by simp [hws0]), if_pos hmm, hp] at htry
        have hu' : AppJs.fixPath
            { u with scheme := if u.scheme = "https" then "wss" else "ws" } = u' := by
          simpa using htry
        rw [hnv, ← hu']
        exact ⟨(fixPath_preserves _).2.1, (fixPath_preserves _).2.2, (fixPath_preserves _).1⟩

/-- A concrete page location for instantiating the URL theorem. -/
def locW : Loc := ⟨"http:", "localhost", some 3000⟩

theorem normalizeSocketUrl_total_safe_witness :
    (AppJs.normalizeSocketUrlM locW "https://example.org:8443/api").host = "example.org"
    ∧ (AppJs.normalizeSocketUrlM locW "https://example.org:8443/api").port = some 8443
    ∧ (AppJs.normalizeSocketUrlM locW "https://example.org:8443/api").scheme = "wss" := by
  have hthm := normalizeSocketUrl_total_safe locW "https://example.org:8443/api"
  have happ := hthm.2.2.2.2.1 ⟨"https", "example.org", some 8443, "/api"⟩ (by decide) (by decide)
  refine ⟨happ.1, happ.2.1, ?_⟩
  rw [happ.2.2]
  simp

/-! ## Client-side persistence (localStorage)

`window.localStorage` is modelled as a partial map from keys to stored
strings; `getItem` returning `none` models the `null` of an absent key. -/

/-- Browser `localStorage` contents. -/
def Storage : Type := String → Option String

/-- `localStorage.getItem`. -/
def getItem (st : Storage) (k : String) : Option String := st k

/-- `localStorage.setItem`. -/
def setItem (st : Storage) (k v : String) : Storage :=
  fun q => if q = k then some v else st q

/-- `localStorage.removeItem`. -/
def removeItem (st : Storage) (k : String) : Storage :=
  fun q => if q = k then none else st q

/-- An empty `localStorage`. -/
def emptyStorage : Storage := fun _ => none

/-- The built-in prompt template of `src/unnamed/part_000` and
`src/unnamed/part_001` (written with escaped braces). -/
def defaultPromptTemplate : String :=
  "Turn the following audio transcription into a blog post in English.\n----\n\n\x7b\x7bURL\x7d\x7d\n\n"

/-- The `change` listener on the backend-address field (`docs/app.js`
lines 203-210, `src/unnamed/part_001` lines 297-304): store the trimmed
value under `"backendAddress"` when it is truthy (non-empty), otherwise
remove the key. -/
def backendAddressChange (fieldValue : String) (st : Storage) : Storage :=
  let value := jsTrim fieldValue
  if value ≠ "" then setItem st "backendAddress" value else removeItem st "backendAddress"

/-- Page-load restore of the backend-address field in
`src/unnamed/part_001` (lines 290-296): a truthy saved value is copied into
the field, otherwise the field is set to the default backend address. -/
def restoreBackendAddress (st : Storage) (dflt : String) : String :=
  match getItem st "backendAddress" with
  | some s => if s ≠ "" then s else dflt
  | none => dflt

/-- Page-load restore of the backend-address field in `docs/app.js`
(lines 198-202): a truthy saved value is copied into the field, otherwise
the field keeps its current value. -/
def restoreBackendAddressAppJs (st : Storage) (current : String) : String :=
  match getItem st "backendAddress" with
  | some s => if s ≠ "" then s else current
  | none => current

/-- The `input` listener on the prompt-template field
(`src/unnamed/part_001` lines 315-317): store the raw field value under
`"promptTemplate"` on every input event. -/
def promptTemplateInputEvent (fieldValue : String) (st : Storage) : Storage :=
  setItem st "promptTemplate" fieldValue

/-- Page-load restore of the prompt template (`src/unnamed/part_001`
lines 307-314): a truthy saved value is copied into the field; otherwise the
field is set to the built-in default template, which is also written back to
storage.  Returns the field value and the updated storage. -/
def restorePromptTemplate (st : Storage) : String × Storage :=
  match getItem st "promptTemplate" with
  | some s =>
      if s ≠ "" then (s, st)
      else (defaultPromptTemplate, setItem st "promptTemplate" defaultPromptTemplate)
  | none => (defaultPromptTemplate, setItem st "promptTemplate" defaultPromptTemplate)

/-- Claim C8 (amended): the backend-address `change` handler stores the
trimmed value under `"backendAddress"` exactly when it is non-empty and
removes the key when empty, and a non-empty stored value is restored on the
next load (in both variants); the prompt template is stored raw under
`"promptTemplate"` on every input event and is restored on the next load
when non-empty, while an absent (or empty) saved template makes the load use
— and write back — the built-in default template. -/
theorem backendAddress_persistence (v : String) (st : Storage) (dflt cur t : String) :
    (jsTrim v ≠ "" → getItem (backendAddressChange v st) "backendAddress" = some (jsTrim v))
    ∧ (jsTrim v = "" → getItem (backendAddressChange v st) "backendAddress" = none)
    ∧ (jsTrim v ≠ "" →
        restoreBackendAddress (backendAddressChange v st) dflt = jsTrim v
        ∧ restoreBackendAddressAppJs (backendAddressChange v st) cur = jsTrim v)
    ∧ getItem (promptTemplateInputEvent t st) "promptTemplate" = some t
    ∧ (t ≠ "" → (restorePromptTemplate (promptTemplateInputEvent t st)).1 = t)
    ∧ (getItem st "promptTemplate" = none →
        (restorePromptTemplate st).1 = defaultPromptTemplate
        ∧ getItem (restorePromptTemplate st).2 "promptTemplate" =
            some defaultPromptTemplate) := by
  refine ⟨?_, ?_, ?_, ?_, ?_, ?_⟩
  · intro h
    simp [backendAddressChange, getItem, setItem, h]
  · intro h
    simp [backendAddressChange, getItem, removeItem, h]
  · intro h
    constructor
    · simp [restoreBackendAddress, backendAddressChange, getItem, setItem, h]
    · simp [restoreBackendAddressAppJs, backendAddressChange, getItem, setItem, h]
  · simp [promptTemplateInputEvent, getItem, setItem]
  · intro h
    simp [restorePromptTemplate, promptTemplateInputEvent, getItem, setItem, h]
  · intro h
    have h' : st "promptTemplate" = none := h
    simp [restorePromptTemplate, getItem, setItem, h']

theorem backendAddress_persistence_witness :
    getItem (backendAddressChange "  example.org:8080  " emptyStorage) "backendAddress" =
      some "example.org:8080"
    ∧ restoreBackendAddress (backendAddressChange "  example.org:8080  " emptyStorage)
        "http://localhost" = "example.org:8080"
    ∧ getItem (promptTemplateInputEvent "T" emptyStorage) "promptTemplate" = some "T" := by
  have hthm := backendAddress_persistence "  example.org:8080  " emptyStorage
    "http://localhost" "" "T"
  exact ⟨hthm.1 (by decide), (hthm.2.2.1 (by decide)).1, hthm.2.2.2.1⟩

/-- Claim C8, counterexample to the claim as stated: after an `input` event
with the empty field value, the template saved under `"promptTemplate"` is
`""`, but the next load does not restore it — the falsy saved value makes
the load fall back to the built-in default template. -/
theorem promptTemplate_empty_not_restored_counterexample :
    getItem (promptTemplateInputEvent "" emptyStorage) "promptTemplate" = some ""
    ∧ (restorePromptTemplate (promptTemplateInputEvent "" emptyStorage)).1 =
        defaultPromptTemplate
    ∧ defaultPromptTemplate ≠ "" := by
  exact ⟨rfl, rfl, by decide⟩

/-- Claim C6 (amended): `createReservation` returns a reservation id iff the
response is 2xx and the JSON body has a non-empty `reservation_id` field (the
returned id is that field's value); on non-2xx it throws the body's `message`
when that is present and non-empty and `"Failed to create reservation."`
otherwise; a 2xx response whose `reservation_id` is absent or the empty
string throws `"Backend did not return a reservation ID."`. -/
theorem createReservation_spec (r : HttpResp Part001.ResvBody) :
    ((∃ id, Part001.createReservation r = .ok id) ↔
      ((200 ≤ r.status ∧ r.status < 300) ∧
        ∃ b, r.body = some b ∧ ∃ id, b.reservation_id = some id ∧ id ≠ ""))
    ∧ (∀ id, Part001.createReservation r = .ok id →
        r.body.bind Part001.ResvBody.reservation_id = some id)
    ∧ ((200 ≤ r.status ∧ r.status < 300) →
        (r.body.bind Part001.ResvBody.reservation_id = none ∨
          r.body.bind Part001.ResvBody.reservation_id = some "") →
        Part001.createReservation r = .error "Backend did not return a reservation ID.")
    ∧ (¬(200 ≤ r.status ∧ r.status < 300) →
        ∀ b, r.body = some b → ∀ m, b.message = some m → m ≠ "" →
          Part001.createReservation r = .error m)
    ∧ (¬(200 ≤ r.status ∧ r.status < 300) →
        (r.body.bind Part001.ResvBody.message = none ∨
          r.body.bind Part001.ResvBody.message = some "") →
        Part001.createReservation r = .error "Failed to create reservation.") := by
  obtain ⟨st, body⟩ := r
  by_cases hok : 200 ≤ st ∧ st < 300
  · have hro : respOk st = true := (respOk_iff st).mpr hok
    cases body with
    | none =>
      simp [Part001.createReservation, hro, hok]
    | some b =>
      obtain ⟨msg, rid⟩ := b
      cases rid with
      | none => simp [Part001.createReservation, hro, hok]
      | some ridv =>
        by_cases hrid : ridv = ""
        · subst hrid
          simp [Part001.createReservation, hro, hok]
        · simp [Part001.createReservation, hro, hok, hrid]
  · have hro : respOk st = false := by
      cases hv : respOk st
      · rfl
      · exact absurd ((respOk_iff st).mp hv) hok
    cases body with
    | none =>
      simp [Part001.createReservation, hro, hok, optTruthyD]
    | some b =>
      obtain ⟨msg, rid⟩ := b
      cases msg with
      | none => simp [Part001.createReservation, hro, hok, optTruthyD]
      | some m =>
        by_cases hm : m = ""
        · subst hm
          simp [Part001.createReservation, hro, hok, optTruthyD, truthyD]
        · simp [Part001.createReservation, hro, hok, optTruthyD, truthyD, hm]

theorem createReservation_spec_witness :
    Part001.createReservation ⟨404, some ⟨some "boom", none⟩⟩ = .error "boom" := by
  have hthm := createReservation_spec ⟨404, some ⟨some "boom", none⟩⟩
  exact hthm.2.2.2.1 (by decide) ⟨some "boom", none⟩ rfl "boom" rfl (by decide)

/-- Claim C6, counterexample to the claim as stated: a 2xx response whose
body does contain a `reservation_id` field — holding the empty string —
makes `createReservation` throw instead of returning the id, because the
code tests JavaScript truthiness (`!payload.reservation_id`), not field
presence. -/
theorem createReservation_empty_id_counterexample :
    Part001.createReservation ⟨200, some ⟨none, some ""⟩⟩ =
      .error "Backend did not return a reservation ID."
    ∧ respOk 200 = true
    ∧ (some (⟨none, some ""⟩ : Part001.ResvBody)).bind Part001.ResvBody.reservation_id =
        some "" := by
  exact ⟨rfl, rfl, rfl⟩

end YtSub
